import Mathlib

/-!
Shallow embedding of xclim's configurable missing-value handling, as exercised
by `docs/notebooks/options.ipynb`.  The notebook is the only source file of the
repository; the library machinery it calls (`set_options`, the missing-method
registry, the built-in `pct` and `wmo` methods and `longest_run`) is modelled
from the specification, while the `MissingConsecutive` class defined in the
notebook itself is translated from its source.

Option values are mapped to rationals (ℚ): the notebook passes plain Python
numbers (`0.08`, `2`) as option values.
-/

namespace Xclim

/-- Option mapping for one policy: association list from option name to value. -/
abbrev Options : Type := List (String × ℚ)

/-- Look up an option value, falling back to a default when absent. -/
def getOpt (opts : Options) (key : String) (dflt : ℚ) : ℚ :=
  (List.lookup key opts).getD dflt

/-- Error taxonomy of the mechanism (spec §7). -/
inductive Err where
  | unknownPolicyError
  | invalidOptionsError
  | duplicateNameError
  | misalignedPeriodsError
  deriving DecidableEq, Repr

/-- Modelled from the spec: `longest_run` (imported by the notebook from
`xclim.indices.run_length`, not under src).  Accumulator loop: scan the boolean
sequence in time order, tracking current run length (reset to 0 on a `false`,
incremented on `true`), retaining the maximum seen. -/
def lrGo (cur best : Nat) : List Bool → Nat
  | [] => max cur best
  | b :: t => if b then lrGo (cur + 1) best t else lrGo 0 (max cur best) t

/-- Modelled from the spec: longest run of consecutive `true` values. -/
def longest_run (xs : List Bool) : Nat := lrGo 0 0 xs

/-- Length of the run of `true`s at the head of the list. -/
def headRun : List Bool → Nat
  | [] => 0
  | b :: t => if b then headRun t + 1 else 0

/-- Recursive (non-accumulator) characterisation of the longest run, used to
relate `longest_run` to the existence of runs. -/
def longestRunR : List Bool → Nat
  | [] => 0
  | b :: t => max (headRun (b :: t)) (longestRunR t)

/-- `xs` contains a run of `k` consecutive `true` values. -/
def hasRun (xs : List Bool) (k : Nat) : Prop :=
  ∃ i, (xs.drop i).take k = List.replicate k true

/-- The per-timestep current-run lengths of the scan described by the spec. -/
def currentRunLengths (xs : List Bool) : List Nat :=
  List.scanl (fun cur b => if b then cur + 1 else 0) 0 xs

/-! ## Policy registry and evaluator (spec §4), modelled from the spec -/

/-- Modelled from the spec: a registered missing-data policy
(`PolicyDescriptor`, spec §3): its unique name, the per-period rule
(`is_missing` on one period's invalid-value mask and expected count, with the
policy options), the recognized option names, and the `validate` predicate on
options (`fun _ => true` when the policy defines none). -/
structure PolicyDescriptor where
  name : String
  isMissing : List Bool → Nat → Options → Bool
  recognized : List String
  validate : Options → Bool

/-- Modelled from the spec: the process-wide policy registry. -/
abbrev Registry : Type := List PolicyDescriptor

/-- Modelled from the spec: `lookup(name) -> PolicyDescriptor`, failing with
`UnknownPolicyError` if absent. -/
def lookup (reg : Registry) (name : String) : Except Err PolicyDescriptor :=
  match reg.find? (fun d => d.name == name) with
  | some d => .ok d
  | none => .error .unknownPolicyError

/-- Modelled from the spec: `register(name, implementation, recognized_options)`
(the notebook's `register_missing_method` decorator), failing with
`DuplicateNameError` on a name collision (the spec leaves the collision
behavior open; fresh-name registrations are unaffected by the choice). -/
def register (reg : Registry) (d : PolicyDescriptor) : Except Err Registry :=
  if reg.any (fun e => e.name == d.name) then .error .duplicateNameError
  else .ok (d :: reg)

/-- All supplied option names are members of the policy's recognized set. -/
def optionKeysOk (opts : Options) (recognized : List String) : Bool :=
  opts.all (fun p => recognized.contains p.1)

/-- Modelled from the spec: the per-descriptor part of `evaluate` — validate
the options against the recognized set and the `validate` function (else
`InvalidOptionsError`), check mask/period-count alignment (else
`MisalignedPeriodsError`), then apply the per-period rule, one boolean per
period. -/
def evalWithDescriptor (d : PolicyDescriptor) (mask : List (List Bool))
    (counts : List Nat) (opts : Options) : Except Err (List Bool) :=
  if ¬ (optionKeysOk opts d.recognized && d.validate opts) then
    .error .invalidOptionsError
  else if mask.length ≠ counts.length then
    .error .misalignedPeriodsError
  else
    .ok (List.zipWith (fun xs c => d.isMissing xs c opts) mask counts)

/-- Modelled from the spec: `evaluate(name, mask, period_counts, options)`:
resolve the policy via `lookup`, then run the shared validation and
per-period evaluation steps. -/
def evaluate (reg : Registry) (name : String) (mask : List (List Bool))
    (counts : List Nat) (opts : Options) : Except Err (List Bool) :=
  match lookup reg name with
  | .error e => .error e
  | .ok d => evalWithDescriptor d mask counts opts

/-! ## Built-in policies and the notebook's custom policy -/

/-- Modelled from the spec: the percentage-tolerance (`pct`) built-in — a
period is missing if `(number of True in mask for that period) / count >
tolerance` (default tolerance 0.05).  The ratio is written `mkRat`, which
equals `(↑invalid / ↑count : ℚ)` for every numerator and denominator
(`Rat.mkRat_eq_div`, including the degenerate `count = 0`, where both are 0). -/
def pctIsMissing (xs : List Bool) (count : Nat) (opts : Options) : Bool :=
  decide (mkRat (xs.count true) count > getOpt opts "tolerance" (mkRat 5 100))

/-- Modelled from the spec: the `pct` descriptor (recognized option:
`tolerance`; no `validate` beyond it). -/
def pctPolicy : PolicyDescriptor :=
  { name := "pct"
    isMissing := pctIsMissing
    recognized := ["tolerance"]
    validate := fun _ => true }

/-- Modelled from the spec: the WMO-style (`wmo`) built-in — a period is
missing if the count of invalid timesteps exceeds `nm` (default 5), OR there
is a run of consecutive invalid timesteps of length ≥ `nc` (default 4). -/
def wmoIsMissing (xs : List Bool) (count : Nat) (opts : Options) : Bool :=
  decide ((xs.count true : ℚ) > getOpt opts "nm" 5) ||
    decide ((longest_run xs : ℚ) ≥ getOpt opts "nc" 4)

/-- Modelled from the spec: the `wmo` descriptor (recognized options: `nm`,
`nc`). -/
def wmoPolicy : PolicyDescriptor :=
  { name := "wmo"
    isMissing := wmoIsMissing
    recognized := ["nm", "nc"]
    validate := fun _ => true }

/-- From the notebook source (`MissingConsecutive.is_missing`): a period is
missing when `null.map(longest_run, dim="time") >= max_n` (default
`max_n=5`). -/
def consecutiveIsMissing (xs : List Bool) (count : Nat) (opts : Options) : Bool :=
  decide ((longest_run xs : ℚ) ≥ getOpt opts "max_n" 5)

/-- From the notebook source (`MissingConsecutive.validate`):
`return max_n > 0`. -/
def consecutiveValidate (opts : Options) : Bool :=
  decide (getOpt opts "max_n" 5 > 0)

/-- The descriptor produced by `@register_missing_method("consecutive")` on
the notebook's `MissingConsecutive` class (recognized option: the `is_missing`
keyword argument `max_n`). -/
def consecutivePolicy : PolicyDescriptor :=
  { name := "consecutive"
    isMissing := consecutiveIsMissing
    recognized := ["max_n"]
    validate := consecutiveValidate }

/-- Modelled from the spec: the registry of built-in methods before the
notebook registers its own. -/
def builtinRegistry : Registry := [pctPolicy, wmoPolicy]

/-- The registry after the notebook's `@register_missing_method("consecutive")`
registration. -/
def fullRegistry : Registry := consecutivePolicy :: builtinRegistry

/-! ## Global configuration and scoped overrides (spec §3, §5) -/

/-- Modelled from the spec: `GlobalConfig` — the process-wide selection of
active policy name and the per-policy option mappings. -/
structure GlobalConfig where
  checkMissing : String
  missingOptions : List (String × Options)

/-- Modelled from the spec: the argument of one `set_options` call — an
optional new `check_missing` policy name and optional per-policy option
overrides. -/
structure Settings where
  checkMissing : Option String
  missingOptions : Option (List (String × Options))

/-- Modelled from the spec: validate the per-policy option overrides of a
`set_options` call: each named policy must be registered, and its options must
be recognized and pass `validate`, else `InvalidOptionsError`. -/
def checkPolicyOptions (reg : Registry) : List (String × Options) → Except Err Unit
  | [] => .ok ()
  | (n, o) :: t =>
      match lookup reg n with
      | .error e => .error e
      | .ok d =>
          if optionKeysOk o d.recognized && d.validate o then checkPolicyOptions reg t
          else .error .invalidOptionsError

/-- Modelled from the spec: `set_options` — validate everything first (fail
fast on unknown policy names or invalid options), and only then produce the
mutated configuration; on error the configuration is untouched. -/
def setOptions (reg : Registry) (cfg : GlobalConfig) (s : Settings) :
    Except Err GlobalConfig :=
  match (match s.checkMissing with
         | none => Except.ok ()
         | some n => (lookup reg n).map fun _ => () : Except Err Unit) with
  | .error e => .error e
  | .ok () =>
      match checkPolicyOptions reg (s.missingOptions.getD []) with
      | .error e => .error e
      | .ok () =>
          .ok { checkMissing := s.checkMissing.getD cfg.checkMissing
                missingOptions := (s.missingOptions.getD []) ++ cfg.missingOptions }

/-- The global configuration after a `set_options` call: mutated on success,
identical to the prior configuration when the call fails. -/
def applySetOptions (reg : Registry) (cfg : GlobalConfig) (s : Settings) :
    GlobalConfig :=
  match setOptions reg cfg s with
  | .ok cfg' => cfg'
  | .error _ => cfg

/-- Modelled from the spec: `set_options` as a context manager
(`with xc.set_options(...):`) — capture the prior configuration, apply the
override for the body (which may itself fail), and restore the captured
configuration on every exit path.  Returns the body's outcome (or the entry
error) together with the configuration in force after the block. -/
def withOptions {α : Type} (reg : Registry) (cfg : GlobalConfig) (s : Settings)
    (body : GlobalConfig → Except Err α) : Except Err α × GlobalConfig :=
  match setOptions reg cfg s with
  | .error e => (.error e, cfg)
  | .ok cfg' => (body cfg', cfg)

/-- The option mapping the configuration holds for one policy name. -/
def optionsFor (cfg : GlobalConfig) (name : String) : Options :=
  (List.lookup name cfg.missingOptions).getD []

/-- Modelled from the spec: an evaluation performed under the current global
configuration (an indicator call such as `xc.atmos.tx_mean`): the active
policy name and its configured options are taken from `GlobalConfig`. -/
def evaluateUnderConfig (reg : Registry) (cfg : GlobalConfig)
    (mask : List (List Bool)) (counts : List Nat) : Except Err (List Bool) :=
  evaluate reg cfg.checkMissing mask counts (optionsFor cfg cfg.checkMissing)

/-! ## Concrete inputs used by the test-level parts of the claims -/

/-- A 10-timestep period with exactly one invalid timestep. -/
def mask10 : List Bool :=
  [true, false, false, false, false, false, false, false, false, false]

/-- A period with exactly 5 invalid timesteps, none of them consecutive. -/
def mask5scattered : List Bool :=
  [true, false, true, false, true, false, true, false, true, false]

/-- A period with exactly 4 invalid timesteps, all consecutive. -/
def mask4run : List Bool :=
  [false, true, true, true, true, false]

/-- The notebook's initial global configuration after
`set_options(check_missing='pct', missing_options={'pct': {'tolerance': 0.08}})`. -/
def cfgNotebook : GlobalConfig :=
  { checkMissing := "pct"
    missingOptions := [("pct", [("tolerance", mkRat 8 100)])] }

/-- The configuration in force inside the notebook's
`with xc.set_options(check_missing="wmo"):` block, starting from
`cfgNotebook`. -/
def cfgInsideWmo : GlobalConfig :=
  { checkMissing := "wmo"
    missingOptions := [("pct", [("tolerance", mkRat 8 100)])] }

/-- A body for the scoped-override block: one indicator evaluation under the
configuration in force. -/
def bodyDemo : GlobalConfig → Except Err (List Bool) :=
  fun c => evaluateUnderConfig builtinRegistry c [[true]] [31]

/-! ## Run-length lemmas -/

theorem headRun_le_longestRunR (xs : List Bool) : headRun xs ≤ longestRunR xs := by
  cases xs with
  | nil => simp [headRun, longestRunR]
  | cons b t => simp [longestRunR]

theorem lrGo_eq (xs : List Bool) : ∀ cur best,
    lrGo cur best xs = max (max cur best) (max (cur + headRun xs) (longestRunR xs)) := by
  induction xs with
  | nil => intro cur best; simp only [lrGo, headRun, longestRunR]; omega
  | cons b t ih =>
      intro cur best
      cases b with
      | true =>
          have := headRun_le_longestRunR t
          simp [lrGo, ih, headRun, longestRunR]
          omega
      | false =>
          have := headRun_le_longestRunR t
          simp [lrGo, ih, headRun, longestRunR]
          omega

theorem longest_run_eq_longestRunR (xs : List Bool) : longest_run xs = longestRunR xs := by
  have h := lrGo_eq xs 0 0
  have := headRun_le_longestRunR xs
  simp [longest_run, h]
  omega

theorem le_headRun_iff (k : Nat) (xs : List Bool) :
    k ≤ headRun xs ↔ xs.take k = List.replicate k true := by
  induction xs generalizing k with
  | nil =>
      cases k with
      | zero => simp [headRun]
      | succ j => simp [headRun, List.replicate]
  | cons b t ih =>
      cases k with
      | zero => simp
      | succ j =>
          cases b with
          | true => simp [headRun, List.replicate, Nat.succ_le_succ_iff, ih]
          | false => simp [headRun, List.replicate]

theorem le_longestRunR_iff (k : Nat) (xs : List Bool) :
    k ≤ longestRunR xs ↔ hasRun xs k := by
  induction xs generalizing k with
  | nil =>
      cases k with
      | zero => exact ⟨fun _ => ⟨0, by simp⟩, fun _ => Nat.le_refl 0⟩
      | succ j =>
          simp only [longestRunR, hasRun]
          constructor
          · omega
          · rintro ⟨i, h⟩
            simp [List.replicate] at h
  | cons b t ih =>
      simp only [longestRunR, le_max_iff, le_headRun_iff, ih, hasRun]
      constructor
      · rintro (h | ⟨i, h⟩)
        · exact ⟨0, by simpa using h⟩
        · exact ⟨i + 1, by simpa using h⟩
      · rintro ⟨i, h⟩
        cases i with
        | zero => exact Or.inl (by simpa using h)
        | succ j => exact Or.inr ⟨j, by simpa using h⟩

theorem le_foldr_max_scanl (f : Nat → Bool → Nat) (c : Nat) (t : List Bool) :
    c ≤ (List.scanl f c t).foldr max 0 := by
  cases t <;> simp [List.scanl]

theorem lrGo_eq_foldr_scanl (xs : List Bool) : ∀ cur best,
    lrGo cur best xs =
      max best ((List.scanl (fun cur b => if b then cur + 1 else 0) cur xs).foldr max 0) := by
  induction xs with
  | nil => intro cur best; simp [lrGo, List.scanl]; omega
  | cons b t ih =>
      intro cur best
      cases b with
      | true =>
          have h := le_foldr_max_scanl (fun cur b => if b then cur + 1 else 0) (cur + 1) t
          simp [lrGo, List.scanl, ih]
          omega
      | false =>
          simp [lrGo, List.scanl, ih]
          omega

/-- A run of length at least `k` exists iff the longest run reaches `k`. -/
theorem hasRun_iff_le_longest_run (xs : List Bool) (k : Nat) :
    hasRun xs k ↔ k ≤ longest_run xs := by
  rw [longest_run_eq_longestRunR, le_longestRunR_iff]

/-! ## Claims -/

/-- C8: the longest-consecutive-run primitive equals the maximum over the
sequence of current-run lengths of the scan that resets the run length to 0 on
each `false` and increments it on each `true`; on the empty sequence it is
0. -/
theorem longest_run_is_max_of_scan :
    (∀ xs : List Bool, longest_run xs = (currentRunLengths xs).foldr max 0) ∧
    longest_run [] = 0 := by
  constructor
  · intro xs
    have h := lrGo_eq_foldr_scanl xs 0 0
    simpa [longest_run, currentRunLengths] using h
  · rfl

/-- C6: whenever `evaluate` succeeds, the returned sequence of booleans has
exactly one entry per period of `period_counts`. -/
theorem evaluate_length (reg : Registry) (name : String) (mask : List (List Bool))
    (counts : List Nat) (opts : Options) (r : List Bool)
    (h : evaluate reg name mask counts opts = .ok r) : r.length = counts.length := by
  unfold evaluate at h
  cases hl : lookup reg name with
  | error e => rw [hl] at h; cases h
  | ok d =>
      rw [hl] at h
      dsimp only at h
      unfold evalWithDescriptor at h
      split_ifs at h with h1 h2
      injection h with h3
      rw [← h3]
      simp [List.length_zipWith]
      omega

/-- Closed instance of C6's theorem at a concrete evaluation. -/
theorem evaluate_length_witness :
    ([false] : List Bool).length = ([31] : List Nat).length :=
  evaluate_length builtinRegistry "wmo" [[true]] [31] [] [false] rfl

/-- C7: a policy name absent from the registry makes `lookup` — and hence any
`evaluate` call naming that policy — fail with `UnknownPolicyError`, producing
no per-period result. -/
theorem unknown_policy (reg : Registry) (name : String)
    (h : ∀ d ∈ reg, d.name ≠ name) :
    lookup reg name = .error .unknownPolicyError ∧
    ∀ mask counts opts,
      evaluate reg name mask counts opts = .error .unknownPolicyError := by
  have hfind : reg.find? (fun d => d.name == name) = none := by
    rw [List.find?_eq_none]
    intro d hd
    simpa using h d hd
  have hlook : lookup reg name = .error .unknownPolicyError := by
    simp [lookup, hfind]
  exact ⟨hlook, fun mask counts opts => by simp [evaluate, hlook]⟩

/-- Closed instance of C7's theorem: the name `"bogus"` is not registered. -/
theorem unknown_policy_witness :
    lookup fullRegistry "bogus" = .error .unknownPolicyError ∧
    evaluate fullRegistry "bogus" [[true]] [1] [] = .error .unknownPolicyError :=
  ⟨(unknown_policy fullRegistry "bogus" (by decide)).1,
   (unknown_policy fullRegistry "bogus" (by decide)).2 [[true]] [1] []⟩

/-- C3: under the `pct` policy a period is missing iff
`invalid / expected count > tolerance` (strict); with `count = 10` and one
invalid timestep, `tolerance = 0.08` gives missing and `tolerance = 0.15`
gives not missing. -/
theorem pct_policy_correct :
    (∀ (xs : List Bool) (c : Nat) (tol : ℚ) (b : Bool),
        evaluate builtinRegistry "pct" [xs] [c] [("tolerance", tol)] = .ok [b] →
        (b = true ↔ (xs.count true : ℚ) / (c : ℚ) > tol)) ∧
    evaluate builtinRegistry "pct" [mask10] [10] [("tolerance", mkRat 8 100)] =
      .ok [true] ∧
    evaluate builtinRegistry "pct" [mask10] [10] [("tolerance", mkRat 15 100)] =
      .ok [false] := by
  refine ⟨?_, rfl, rfl⟩
  intro xs c tol b h
  have he : evaluate builtinRegistry "pct" [xs] [c] [("tolerance", tol)] =
      .ok [pctIsMissing xs c [("tolerance", tol)]] := rfl
  rw [he] at h
  injection h with h1
  injection h1 with hb _
  subst hb
  simp only [pctIsMissing, decide_eq_true_eq]
  rw [show getOpt [("tolerance", tol)] "tolerance" (mkRat 5 100) = tol from rfl,
    Rat.mkRat_eq_div]
  push_cast
  exact Iff.rfl

/-- Closed instance of C3's theorem at the notebook's 8% tolerance. -/
theorem pct_policy_correct_witness :
    true = true ↔ (mask10.count true : ℚ) / ((10 : ℕ) : ℚ) > mkRat 8 100 :=
  pct_policy_correct.1 mask10 10 (mkRat 8 100) true rfl

/-- C2: under the `wmo` policy (defaults `nm = 5`, `nc = 4`) a period is
missing iff the invalid count strictly exceeds `nm` or a run of at least `nc`
consecutive invalid timesteps exists; 5 scattered invalid timesteps are not
missing under the defaults, while 4 consecutive invalid timesteps are missing
regardless of the total count. -/
theorem wmo_policy_correct :
    (∀ (xs : List Bool) (c : Nat) (nm nc : ℕ) (b : Bool),
        evaluate builtinRegistry "wmo" [xs] [c]
            [("nm", (nm : ℚ)), ("nc", (nc : ℚ))] = .ok [b] →
        (b = true ↔ (nm < xs.count true ∨ hasRun xs nc))) ∧
    (∀ (xs : List Bool) (c : Nat) (b : Bool),
        evaluate builtinRegistry "wmo" [xs] [c] [] = .ok [b] →
        (b = true ↔ (5 < xs.count true ∨ hasRun xs 4))) ∧
    evaluate builtinRegistry "wmo" [mask5scattered] [30] [] = .ok [false] ∧
    evaluate builtinRegistry "wmo" [mask4run] [30] [] = .ok [true] := by
  refine ⟨?_, ?_, rfl, rfl⟩
  · intro xs c nm nc b h
    have he : evaluate builtinRegistry "wmo" [xs] [c]
        [("nm", (nm : ℚ)), ("nc", (nc : ℚ))] =
        .ok [wmoIsMissing xs c [("nm", (nm : ℚ)), ("nc", (nc : ℚ))]] := rfl
    rw [he] at h
    injection h with h1
    injection h1 with hb _
    subst hb
    rw [show hasRun xs nc ↔ nc ≤ longest_run xs from hasRun_iff_le_longest_run xs nc]
    simp only [wmoIsMissing, Bool.or_eq_true, decide_eq_true_eq]
    rw [show getOpt [("nm", (nm : ℚ)), ("nc", (nc : ℚ))] "nm" 5 = (nm : ℚ) from rfl,
      show getOpt [("nm", (nm : ℚ)), ("nc", (nc : ℚ))] "nc" 4 = (nc : ℚ) from rfl]
    norm_cast
  · intro xs c b h
    have he : evaluate builtinRegistry "wmo" [xs] [c] [] =
        .ok [wmoIsMissing xs c []] := rfl
    rw [he] at h
    injection h with h1
    injection h1 with hb _
    subst hb
    rw [show hasRun xs 4 ↔ 4 ≤ longest_run xs from hasRun_iff_le_longest_run xs 4]
    simp only [wmoIsMissing, Bool.or_eq_true, decide_eq_true_eq]
    rw [show getOpt ([] : Options) "nm" 5 = (5 : ℚ) from rfl,
      show getOpt ([] : Options) "nc" 4 = (4 : ℚ) from rfl]
    constructor
    · rintro (h5 | h4)
      · exact Or.inl (by exact_mod_cast h5)
      · exact Or.inr (by exact_mod_cast h4)
    · rintro (h5 | h4)
      · exact Or.inl (by exact_mod_cast h5)
      · exact Or.inr (by exact_mod_cast h4)

/-- Closed instance of C2's theorem on the 4-consecutive-invalid period. -/
theorem wmo_policy_correct_witness :
    true = true ↔ (5 < mask4run.count true ∨ hasRun mask4run 4) :=
  wmo_policy_correct.1 mask4run 30 5 4 true rfl

/-- C4: under the `consecutive` policy a period is missing iff its longest run
of consecutive invalid timesteps reaches the threshold `max_n` (inclusive
comparison; default 5); with `max_n = 2` a longest run of exactly 2 is missing
and a longest run of 1 is not. -/
theorem consecutive_policy_correct :
    (∀ (xs : List Bool) (c : Nat) (m : ℕ) (b : Bool), 0 < m →
        evaluate fullRegistry "consecutive" [xs] [c] [("max_n", (m : ℚ))] = .ok [b] →
        (b = true ↔ m ≤ longest_run xs)) ∧
    (∀ (xs : List Bool) (c : Nat) (b : Bool),
        evaluate fullRegistry "consecutive" [xs] [c] [] = .ok [b] →
        (b = true ↔ 5 ≤ longest_run xs)) ∧
    evaluate fullRegistry "consecutive" [[false, true, true, false]] [4]
      [("max_n", 2)] = .ok [true] ∧
    evaluate fullRegistry "consecutive" [[true, false, true, false]] [4]
      [("max_n", 2)] = .ok [false] := by
  refine ⟨?_, ?_, rfl, rfl⟩
  · intro xs c m b hm h
    have he : evaluate fullRegistry "consecutive" [xs] [c] [("max_n", (m : ℚ))] =
        evalWithDescriptor consecutivePolicy [xs] [c] [("max_n", (m : ℚ))] := rfl
    have hv : (optionKeysOk [("max_n", (m : ℚ))] consecutivePolicy.recognized &&
        consecutivePolicy.validate [("max_n", (m : ℚ))]) = true := by
      simp only [Bool.and_eq_true]
      refine ⟨rfl, ?_⟩
      simp only [consecutivePolicy, consecutiveValidate, decide_eq_true_eq]
      rw [show getOpt [("max_n", (m : ℚ))] "max_n" 5 = (m : ℚ) from rfl]
      exact_mod_cast hm
    have h2 : evalWithDescriptor consecutivePolicy [xs] [c] [("max_n", (m : ℚ))] =
        .ok [consecutiveIsMissing xs c [("max_n", (m : ℚ))]] := by
      unfold evalWithDescriptor
      rw [hv]
      simp [consecutivePolicy]
    rw [he, h2] at h
    injection h with h1
    injection h1 with hb _
    subst hb
    simp only [consecutiveIsMissing, decide_eq_true_eq]
    rw [show getOpt [("max_n", (m : ℚ))] "max_n" 5 = (m : ℚ) from rfl]
    exact ⟨fun hx => by exact_mod_cast hx, fun hx => by exact_mod_cast hx⟩
  · intro xs c b h
    have he : evaluate fullRegistry "consecutive" [xs] [c] [] =
        .ok [consecutiveIsMissing xs c []] := rfl
    rw [he] at h
    injection h with h1
    injection h1 with hb _
    subst hb
    simp only [consecutiveIsMissing, decide_eq_true_eq]
    rw [show getOpt ([] : Options) "max_n" 5 = (5 : ℚ) from rfl]
    exact ⟨fun hx => by exact_mod_cast hx, fun hx => by exact_mod_cast hx⟩

/-- Closed instance of C4's theorem at `max_n = 2` on a longest run of 2. -/
theorem consecutive_policy_correct_witness :
    0 < 2 ∧ (true = true ↔ 2 ≤ longest_run [false, true, true, false]) :=
  ⟨by decide,
   consecutive_policy_correct.1 [false, true, true, false] 4 2 true (by decide) rfl⟩

/-- C10: the registered `consecutive` policy's `validate` returns true iff
`max_n > 0`; every non-positive `max_n` is rejected before evaluation (the
call fails with `InvalidOptionsError` and no per-period result), and every
strictly positive `max_n` passes validation and yields a per-period result on
aligned input. -/
theorem consecutive_validate_spec :
    (∀ opts : Options, consecutiveValidate opts = true ↔ 0 < getOpt opts "max_n" 5) ∧
    (∀ v : ℚ, v ≤ 0 → ∀ (mask : List (List Bool)) (counts : List Nat),
        evaluate fullRegistry "consecutive" mask counts [("max_n", v)] =
          .error .invalidOptionsError) ∧
    (∀ v : ℚ, 0 < v → ∀ (mask : List (List Bool)) (counts : List Nat),
        mask.length = counts.length →
        evaluate fullRegistry "consecutive" mask counts [("max_n", v)] =
          .ok (List.zipWith (fun xs c => consecutiveIsMissing xs c [("max_n", v)])
                mask counts)) := by
  refine ⟨?_, ?_, ?_⟩
  · intro opts
    simp [consecutiveValidate]
  · intro v hv mask counts
    have he : evaluate fullRegistry "consecutive" mask counts [("max_n", v)] =
        evalWithDescriptor consecutivePolicy mask counts [("max_n", v)] := rfl
    have hb : (optionKeysOk [("max_n", v)] consecutivePolicy.recognized &&
        consecutivePolicy.validate [("max_n", v)]) = false := by
      simp only [Bool.and_eq_false_iff]
      right
      simp only [consecutivePolicy, consecutiveValidate, decide_eq_false_iff_not]
      rw [show getOpt [("max_n", v)] "max_n" 5 = v from rfl]
      exact not_lt.mpr hv
    rw [he]
    unfold evalWithDescriptor
    rw [hb]
    simp
  · intro v hv mask counts hlen
    have he : evaluate fullRegistry "consecutive" mask counts [("max_n", v)] =
        evalWithDescriptor consecutivePolicy mask counts [("max_n", v)] := rfl
    have hb : (optionKeysOk [("max_n", v)] consecutivePolicy.recognized &&
        consecutivePolicy.validate [("max_n", v)]) = true := by
      simp only [Bool.and_eq_true]
      refine ⟨rfl, ?_⟩
      simp only [consecutivePolicy, consecutiveValidate, decide_eq_true_eq]
      rw [show getOpt [("max_n", v)] "max_n" 5 = v from rfl]
      exact hv
    rw [he]
    unfold evalWithDescriptor
    rw [hb]
    simp [hlen, consecutivePolicy]

/-- Closed instance of C10's theorem: `max_n = 0` is rejected with
`InvalidOptionsError`; `max_n = 2` is accepted and produces a result. -/
theorem consecutive_validate_spec_witness :
    evaluate fullRegistry "consecutive" [[true]] [1] [("max_n", 0)] =
      .error .invalidOptionsError ∧
    evaluate fullRegistry "consecutive" [[true, true, true]] [3] [("max_n", 2)] =
      .ok [true] := by
  refine ⟨consecutive_validate_spec.2.1 0 (by decide) [[true]] [1], ?_⟩
  have h := consecutive_validate_spec.2.2 2 (by decide) [[true, true, true]] [3] rfl
  exact h.trans rfl

/-- C9: registering a policy under a fresh name succeeds, and evaluating with
that name goes through the same `lookup` / option-validation / per-period
steps as a built-in — `evaluate` on the extended registry resolves the new
descriptor and runs the shared `evalWithDescriptor` pipeline, succeeding on
valid aligned input. -/
theorem register_then_evaluate (reg : Registry) (d : PolicyDescriptor)
    (h : ∀ e ∈ reg, e.name ≠ d.name) :
    register reg d = .ok (d :: reg) ∧
    lookup (d :: reg) d.name = .ok d ∧
    (∀ mask counts opts,
        evaluate (d :: reg) d.name mask counts opts =
          evalWithDescriptor d mask counts opts) ∧
    (∀ (mask : List (List Bool)) (counts : List Nat) (opts : Options),
        (optionKeysOk opts d.recognized && d.validate opts) = true →
        mask.length = counts.length →
        evaluate (d :: reg) d.name mask counts opts =
          .ok (List.zipWith (fun xs c => d.isMissing xs c opts) mask counts)) := by
  have hany : reg.any (fun e => e.name == d.name) = false := by
    rw [List.any_eq_false]
    intro e he
    simpa using h e he
  have hlook : lookup (d :: reg) d.name = .ok d := by
    simp [lookup, List.find?]
  have heval : ∀ mask counts opts,
      evaluate (d :: reg) d.name mask counts opts =
        evalWithDescriptor d mask counts opts := by
    intro mask counts opts
    simp [evaluate, hlook]
  refine ⟨by simp [register, hany], hlook, heval, ?_⟩
  intro mask counts opts hok hlen
  rw [heval]
  unfold evalWithDescriptor
  rw [hok]
  simp [hlen]

/-- Closed instance of C9's theorem: registering the notebook's `consecutive`
policy on the built-in registry, then evaluating with it. -/
theorem register_then_evaluate_witness :
    register builtinRegistry consecutivePolicy = .ok fullRegistry ∧
    evaluate fullRegistry "consecutive"
        [[true, true, true, true, true], [true, false, false, true, false]]
        [5, 5] [] = .ok [true, false] := by
  have h := register_then_evaluate builtinRegistry consecutivePolicy (by decide)
  refine ⟨h.1, ?_⟩
  have h4 := h.2.2.2
      [[true, true, true, true, true], [true, false, false, true, false]]
      [5, 5] [] rfl rfl
  exact h4.trans rfl

/-- C5: a `set_options` call (also as scope entry) whose options are not in
the policy's recognized set, or are rejected by its `validate`, fails with
`InvalidOptionsError` and leaves the global configuration exactly as it was:
validation happens before any mutation. -/
theorem invalid_options_preserve_config (reg : Registry) (cfg : GlobalConfig)
    (pname : String) (popts : Options) (d : PolicyDescriptor)
    (hl : lookup reg pname = .ok d)
    (hbad : (optionKeysOk popts d.recognized && d.validate popts) = false) :
    setOptions reg cfg ⟨none, some [(pname, popts)]⟩ = .error .invalidOptionsError ∧
    applySetOptions reg cfg ⟨none, some [(pname, popts)]⟩ = cfg ∧
    ∀ (α : Type) (body : GlobalConfig → Except Err α),
      withOptions reg cfg ⟨none, some [(pname, popts)]⟩ body =
        (.error .invalidOptionsError, cfg) := by
  have hchk : checkPolicyOptions reg [(pname, popts)] = .error .invalidOptionsError := by
    simp [checkPolicyOptions, hl, hbad]
  have hset : setOptions reg cfg ⟨none, some [(pname, popts)]⟩ =
      .error .invalidOptionsError := by
    simp [setOptions, hchk]
  exact ⟨hset, by simp [applySetOptions, hset],
    fun α body => by simp [withOptions, hset]⟩

/-- Closed instance of C5's theorem: an unrecognized option name for `pct`
fails and the configuration is unchanged. -/
theorem invalid_options_preserve_config_witness :
    setOptions builtinRegistry cfgNotebook
        ⟨none, some [("pct", [("bad_option", 1)])]⟩ = .error .invalidOptionsError ∧
    applySetOptions builtinRegistry cfgNotebook
        ⟨none, some [("pct", [("bad_option", 1)])]⟩ = cfgNotebook := by
  have h := invalid_options_preserve_config builtinRegistry cfgNotebook "pct"
      [("bad_option", 1)] pctPolicy rfl rfl
  exact ⟨h.1, h.2.1⟩

/-- A successful `set_options` installs the requested policy name (and keeps
the old one when none is requested). -/
theorem setOptions_checkMissing (reg : Registry) (cfg : GlobalConfig)
    (s : Settings) (cfg' : GlobalConfig)
    (h : setOptions reg cfg s = .ok cfg') :
    cfg'.checkMissing = s.checkMissing.getD cfg.checkMissing := by
  unfold setOptions at h
  split at h
  · cases h
  · split at h
    · cases h
    · injection h with h1
      rw [← h1]

/-- C1: a scoped override captures the prior configuration and restores it
exactly on every exit path — whether the body succeeds or fails — while the
body itself runs under the overridden policy; a nested scope restores to its
immediately enclosing scope's configuration, not to the process-start
default. -/
theorem scoped_override_correct (reg : Registry) (cfg : GlobalConfig)
    (s : Settings) (α : Type) (body : GlobalConfig → Except Err α) :
    (withOptions reg cfg s body).2 = cfg ∧
    ∀ cfg', setOptions reg cfg s = .ok cfg' →
      (withOptions reg cfg s body).1 = body cfg' ∧
      (∀ n, s.checkMissing = some n → cfg'.checkMissing = n) ∧
      ∀ (s2 : Settings) (body2 : GlobalConfig → Except Err α),
        (withOptions reg cfg' s2 body2).2 = cfg' := by
  constructor
  · cases h : setOptions reg cfg s <;> simp [withOptions, h]
  · intro cfg' h
    refine ⟨by simp [withOptions, h], ?_, ?_⟩
    · intro n hn
      rw [setOptions_checkMissing reg cfg s cfg' h, hn]
      rfl
    · intro s2 body2
      cases h2 : setOptions reg cfg' s2 <;> simp [withOptions, h2]

/-- Closed instance of C1's theorem on the notebook's
`with xc.set_options(check_missing="wmo")` block: the body evaluates under the
`wmo` override, and afterwards the pre-scope `pct` configuration is back in
force. -/
theorem scoped_override_correct_witness :
    (withOptions builtinRegistry cfgNotebook ⟨some "wmo", none⟩ bodyDemo).2 =
      cfgNotebook ∧
    (withOptions builtinRegistry cfgNotebook ⟨some "wmo", none⟩ bodyDemo).1 =
      bodyDemo cfgInsideWmo ∧
    cfgInsideWmo.checkMissing = "wmo" := by
  have h := scoped_override_correct builtinRegistry cfgNotebook
      ⟨some "wmo", none⟩ (List Bool) bodyDemo
  have h2 := h.2 cfgInsideWmo rfl
  exact ⟨h.1, h2.1, h2.2.1 "wmo" rfl⟩

end Xclim
